import Mathlib

set_option maxRecDepth 10000

namespace Parsers

/-- A decimal fraction `num / 10 ^ exp`, the model of the finite Rust `f64`
values. Every finite double is an exact decimal fraction, and the source
parses and prints numbers through decimal text, so decimal fractions with the
canonical representative (no trailing factor of 10 in `num` unless `exp = 0`)
stand in for the finite doubles; the rounding performed by Rust
`str::parse::<f64>` is abstracted away as exact decimal arithmetic. The full
`f64` value model, including the non-finite values, is `F64`. -/
structure Dec where
  num : Int
  exp : Nat
deriving DecidableEq, Repr

/-- Reduce a decimal fraction to its canonical representative, dividing out
trailing factors of 10. Models the fact that `f64` equality compares values,
not the digit strings they were parsed from. -/
def canonDec : Int → Nat → Dec
  | n, 0 => ⟨n, 0⟩
  | n, k + 1 => if n % 10 = 0 then canonDec (n / 10) k else ⟨n, k + 1⟩

/-- The model of an `f64` value: a finite double (a canonical decimal
fraction, see `Dec`), ±infinity, or NaN. One caveat: equality on this type is
reflexive at `nan`, whereas `f64`'s `PartialEq` has `NaN ≠ NaN`; no theorem
below compares `nan` payloads for equality, so the difference is inert. -/
inductive F64 where
  | finite (d : Dec)
  | inf (neg : Bool)
  | nan
deriving DecidableEq, Repr

/-- The fault value of `src/error.rs` (`Error`): a message and a position. The
`filetype` tag, always `FileType::JSON` in this repository, is omitted. -/
structure Error where
  message : List Char
  index : Nat
deriving DecidableEq, Repr

/-- Outcome of a fallible Rust computation: `ok`/`fault` mirror `Result`, while
`panicked` models abrupt termination (`unreachable!`, `todo!`). `fuelOut` is an
artifact of the fuel-based embedding of the parser loops and is never produced
when the fuel bound exceeds the number of loop steps. -/
inductive Res (α : Type) where
  | ok (val : α)
  | fault (e : Error)
  | panicked (msg : List Char)
  | fuelOut
deriving DecidableEq, Repr

/-- `JsonValue` of `src/json.rs`. Strings are lists of characters (Rust strings
indexed by `chars().nth` in the source), numbers are decimal fractions (see
`Dec`), and the `Object` variant's `HashMap` is modeled as an association list
in iteration order. -/
inductive JsonValue where
  | null
  | string (s : List Char)
  | number (n : F64)
  | boolean (b : Bool)
  | array (elems : List JsonValue)
  | object (entries : List (List Char × JsonValue))

/-- `JsonToken` of `src/json.rs`: a lexical unit carrying the character offset
(in the trimmed input) where it begins. -/
inductive JsonToken where
  | null (pos : Nat)
  | string (val : List Char) (pos : Nat)
  | number (val : F64) (pos : Nat)
  | boolean (val : Bool) (pos : Nat)
  | colon (pos : Nat)
  | comma (pos : Nat)
  | leftBracket (pos : Nat)
  | rightBracket (pos : Nat)
  | leftBrace (pos : Nat)
  | rightBrace (pos : Nat)
  | eof (pos : Nat)
deriving DecidableEq, Repr

/-- The position field shared by every token variant. -/
def JsonToken.pos : JsonToken → Nat
  | .null p => p
  | .string _ p => p
  | .number _ p => p
  | .boolean _ p => p
  | .colon p => p
  | .comma p => p
  | .leftBracket p => p
  | .rightBracket p => p
  | .leftBrace p => p
  | .rightBrace p => p
  | .eof p => p

/-! ### Character classification (by code point, mirroring the source's char tests) -/

/-- Rust `char::is_whitespace`: the Unicode `White_Space` code points. Used by
`str::trim` and by the lexer's inner whitespace-skipping loop. -/
def rustIsWhitespace (c : Char) : Bool :=
  let n := c.toNat
  n = 9 || n = 10 || n = 11 || n = 12 || n = 13 || n = 32 || n = 133 || n = 160 ||
  n = 5760 || (8192 ≤ n && n ≤ 8202) || n = 8232 || n = 8233 || n = 8239 || n = 8287 ||
  n = 12288

/-- The range `'0'..='9'` (code points 48–57). -/
def is_digit (c : Char) : Bool := 48 ≤ c.toNat && c.toNat ≤ 57

/-- The range `'a'..='z'` (code points 97–122), accumulated by `make_keyword`. -/
def is_lower (c : Char) : Bool := 97 ≤ c.toNat && c.toNat ≤ 122

/-- The characters accumulated by `make_number`: `'0'..='9' | '.' | '-' | '+' | 'e' | 'E'`
(code points 48–57, 46, 45, 43, 101, 69). -/
def is_num_char (c : Char) : Bool :=
  is_digit c || c.toNat = 46 || c.toNat = 45 || c.toNat = 43 || c.toNat = 101 || c.toNat = 69

/-- Rust `str::trim`: remove leading and trailing `char::is_whitespace` characters. -/
def trimChars (s : List Char) : List Char :=
  ((s.dropWhile rustIsWhitespace).reverse.dropWhile rustIsWhitespace).reverse

/-! ### Decimal number text (`str::parse::<f64>`) -/

/-- Numeric value of a decimal digit character. -/
def charToDigit (c : Char) : Nat := c.toNat - 48

/-- Value of a most-significant-first digit string. -/
def natVal (ds : List Char) : Nat := ds.foldl (fun a c => 10 * a + charToDigit c) 0

/-- The optional leading sign of a float literal: `-` sets the negative flag,
`+` is consumed without effect, anything else is left in place. -/
def stripSign (s : List Char) : Bool × List Char :=
  match s with
  | c :: r => if c = '-' then (true, r) else if c = '+' then (false, r) else (false, s)
  | [] => (false, s)

/-- The optional fractional part after the integer digits: a point followed by
digits, or nothing. Returns the fraction digits and the remaining suffix. -/
def fracPart (s : List Char) : List Char × List Char :=
  match s with
  | c :: r => if c = '.' then (r.takeWhile is_digit, r.dropWhile is_digit) else ([], s)
  | [] => ([], s)

/-- Does the decimal fraction `mag / 10 ^ k` reach the overflow cutoff of
`str::parse::<f64>`? Rust rounds the exact decimal value to the nearest
double (ties to even), so every magnitude of at least `2 ^ 1024 - 2 ^ 970` —
the midpoint between `f64::MAX` and `2 ^ 1024` — becomes ±infinity. The
comparison is taken at the exact decimal value: `mag / 10^k ≥ 2^1024 - 2^970`
iff `(2^1024 - 2^970) * 10^k ≤ mag`. -/
def overflows (mag k : Nat) : Bool := decide ((2 ^ 1024 - 2 ^ 970) * 10 ^ k ≤ mag)

/-- Assemble the result of a float parse from the sign, the magnitude of the
concatenated digits, and the decimal exponent: ±infinity on overflow,
otherwise the canonical finite decimal fraction. -/
def mkF64 (neg : Bool) (mag k : Nat) : F64 :=
  if overflows mag k then .inf neg
  else .finite (canonDec ((if neg then -1 else 1) * (mag : Int)) k)

/-- Rust `str::parse::<f64>` on the character set `make_number` can accumulate
(`[0-9.eE+-]`): an optional sign, digits with an optional point (at least one
digit overall), and an optional integer exponent. A value beyond the finite
range returns ±infinity exactly as Rust does (`"1e999"` parses to `Ok(inf)`);
a finite value is the exact decimal fraction in canonical form — the source
rounds it to the nearest `f64`, an abstraction documented at `Dec`. (The
`inf`/`nan` spellings accepted by Rust cannot reach this function: the lexer
never accumulates those letters, so a NaN is never produced here.) -/
def rustParseF64 (s : List Char) : Option F64 :=
  let sr := stripSign s
  let d₁ := sr.2.takeWhile is_digit
  let r₂ := sr.2.dropWhile is_digit
  let fr := fracPart r₂
  let d₂ := fr.1
  if d₁ = [] ∧ d₂ = [] then none
  else
    match fr.2 with
    | [] => some (mkF64 sr.1 (natVal (d₁ ++ d₂)) d₂.length)
    | e :: r₄ =>
      if e = 'e' ∨ e = 'E' then
        let er := stripSign r₄
        let ed := er.2.takeWhile is_digit
        if ed = [] ∨ er.2.dropWhile is_digit ≠ [] then none
        else if er.1 then some (mkF64 sr.1 (natVal (d₁ ++ d₂)) (d₂.length + natVal ed))
        else if natVal ed ≤ d₂.length then
          some (mkF64 sr.1 (natVal (d₁ ++ d₂)) (d₂.length - natVal ed))
        else some (mkF64 sr.1 (natVal (d₁ ++ d₂) * 10 ^ (natVal ed - d₂.length)) 0)
      else none

/-! ### Lexer (`JsonLexer` of `src/json.rs`)

The lexer's mutable `index` into the trimmed text becomes explicit state:
each scanning function receives the current position and the remaining
character suffix, and returns the produced token together with the new
position and suffix. Positions are character offsets into the trimmed input,
exactly as in the source (`chars().nth(index)`). -/

/-- The string-scanning loop of `make_string`. `i` is the position of `rest`'s
head character (the loop's `advance` is about to consume it); on return the
final `self.index` is reported alongside the remaining suffix. The `\u` arm is
the source's `todo!("unicode escape sequences")`. An unterminated string (the
`[]` case) returns `ok`, reproducing the source's silent acceptance. -/
def msLoop : List Char → Nat → List Char → Res (List Char × List Char × Nat)
  | acc, i, [] => .ok (acc, [], i)
  | acc, i, '"' :: r => .ok (acc, r, i + 1)
  | acc, i, '\\' :: r =>
    match r with
    | [] => .fault ⟨"Unexpected end of string".data, i + 1⟩
    | c :: r' =>
      match c with
      | '"' => msLoop (acc ++ ['"']) (i + 2) r'
      | '\\' => msLoop (acc ++ ['\\']) (i + 2) r'
      | '/' => msLoop (acc ++ ['/']) (i + 2) r'
      | 'b' => msLoop (acc ++ ['\x08']) (i + 2) r'
      | 'f' => msLoop (acc ++ ['\x0C']) (i + 2) r'
      | 'n' => msLoop (acc ++ ['\n']) (i + 2) r'
      | 'r' => msLoop (acc ++ ['\r']) (i + 2) r'
      | 't' => msLoop (acc ++ ['\t']) (i + 2) r'
      | 'u' => .panicked "not yet implemented: unicode escape sequences".data
      | c => .fault ⟨"Invalid escape sequence '\\".data ++ [c] ++ "'".data, i⟩
  | acc, i, c :: r => msLoop (acc ++ [c]) (i + 1) r

/-- `JsonLexer::make_string`: called with the opening quote at position `q` and
`rest` the suffix after the quote. -/
def make_string (q : Nat) (rest : List Char) : Res (JsonToken × List Char × Nat) :=
  match msLoop [] (q + 1) rest with
  | .ok (content, r, fin) => .ok (.string content q, r, fin)
  | .fault e => .fault e
  | .panicked m => .panicked m
  | .fuelOut => .fuelOut

/-- `JsonLexer::make_number`: greedily accumulate `[0-9.eE+-]` from the current
position and parse the accumulated text as a float. -/
def make_number (pos : Nat) (s : List Char) : Res (JsonToken × List Char × Nat) :=
  let acc := s.takeWhile is_num_char
  match rustParseF64 acc with
  | some d => .ok (.number d pos, s.dropWhile is_num_char, pos + acc.length)
  | none => .fault ⟨"Invalid number '".data ++ acc ++ "'".data, pos⟩

/-- `JsonLexer::make_keyword`: accumulate lowercase letters and match against
`null`/`true`/`false`. -/
def make_keyword (pos : Nat) (s : List Char) : Res (JsonToken × List Char × Nat) :=
  let acc := s.takeWhile is_lower
  if acc = "null".data then .ok (.null pos, s.dropWhile is_lower, pos + acc.length)
  else if acc = "true".data then .ok (.boolean true pos, s.dropWhile is_lower, pos + acc.length)
  else if acc = "false".data then .ok (.boolean false pos, s.dropWhile is_lower, pos + acc.length)
  else .fault ⟨"Unexpected '".data ++ acc ++ "'".data, pos⟩

/-- `JsonLexer::make_symbol`: emit the single-character token and advance. The
`[]` case emits `Eof` (unreachable from `lex`, which stops at end of input). -/
def make_symbol (pos : Nat) (s : List Char) : Res (JsonToken × List Char × Nat) :=
  match s with
  | ':' :: r => .ok (.colon pos, r, pos + 1)
  | ',' :: r => .ok (.comma pos, r, pos + 1)
  | '[' :: r => .ok (.leftBracket pos, r, pos + 1)
  | ']' :: r => .ok (.rightBracket pos, r, pos + 1)
  | '\x7b' :: r => .ok (.leftBrace pos, r, pos + 1)
  | '\x7d' :: r => .ok (.rightBrace pos, r, pos + 1)
  | c :: _ => .fault ⟨"Unexpected '".data ++ [c] ++ "'".data, pos⟩
  | [] => .ok (.eof pos, [], pos + 1)

/-- The scanning loop of `JsonLexer::lex`, dispatching on the current character
(by code point: 32/9/10/13 whitespace, 34 `"`, 45 `-`, 102–116 `f..=t`,
58/44/91/93/123/125 the symbols). The fuel argument only bounds the number of
loop iterations; since every iteration consumes at least one character, the
initial fuel `length + 1` supplied by `lex` is never exhausted. -/
def lexLoop : Nat → Nat → List Char → Res (List JsonToken)
  | 0, _, _ => .fuelOut
  | _ + 1, _, [] => .ok []
  | fuel + 1, pos, c :: rest =>
    if c.toNat = 32 ∨ c.toNat = 9 ∨ c.toNat = 10 ∨ c.toNat = 13 then
      lexLoop fuel (pos + ((c :: rest).takeWhile rustIsWhitespace).length)
        ((c :: rest).dropWhile rustIsWhitespace)
    else if c.toNat = 34 then
      match make_string pos rest with
      | .ok (tok, r, pos') =>
        match lexLoop fuel pos' r with
        | .ok ts => .ok (tok :: ts)
        | e => e
      | .fault e => .fault e
      | .panicked m => .panicked m
      | .fuelOut => .fuelOut
    else if is_digit c = true ∨ c.toNat = 45 then
      match make_number pos (c :: rest) with
      | .ok (tok, r, pos') =>
        match lexLoop fuel pos' r with
        | .ok ts => .ok (tok :: ts)
        | e => e
      | .fault e => .fault e
      | .panicked m => .panicked m
      | .fuelOut => .fuelOut
    else if 102 ≤ c.toNat ∧ c.toNat ≤ 116 then
      match make_keyword pos (c :: rest) with
      | .ok (tok, r, pos') =>
        match lexLoop fuel pos' r with
        | .ok ts => .ok (tok :: ts)
        | e => e
      | .fault e => .fault e
      | .panicked m => .panicked m
      | .fuelOut => .fuelOut
    else if c.toNat = 58 ∨ c.toNat = 44 ∨ c.toNat = 91 ∨ c.toNat = 93 ∨ c.toNat = 123 ∨
        c.toNat = 125 then
      match make_symbol pos (c :: rest) with
      | .ok (tok, r, pos') =>
        match lexLoop fuel pos' r with
        | .ok ts => .ok (tok :: ts)
        | e => e
      | .fault e => .fault e
      | .panicked m => .panicked m
      | .fuelOut => .fuelOut
    else .fault ⟨"Unexpected '".data ++ [c] ++ "'".data, pos⟩

/-- `JsonLexer::lex` after `JsonLexer::new` trimmed the input. -/
def lex (json : List Char) : Res (List JsonToken) :=
  let t := trimChars json
  lexLoop (t.length + 1) 0 t

/-! ### Parser (`JsonParser` of `src/json.rs`)

The parser's state (`tokens`, `index`) becomes explicit: each function
receives the remaining token suffix `rest` (whose head is the token at the
current `index`) together with the numeric `index` itself, which the source
uses both for `tokens.get(self.index)` and — in two error sites — as the
reported error position. `advance()` is `rest.tail` / `idx + 1`.

The loops of `parse_object`/`parse_array` and the mutual recursion with
`parse_value` are driven by a fuel counter; every loop iteration consumes at
least two tokens and every `parse_value` call consumes at least one, so the
initial fuel `2 * tokens.length + 4` supplied by `JSON.parse` is never
exhausted. `unreachable!()` becomes `Res.panicked` with Rust's panic
message. -/

/-- `HashMap::contains_key` over the association-list model of the object
being built. -/
def keyMem (k : List Char) (acc : List (List Char × JsonValue)) : Bool :=
  acc.any (fun kv => kv.1 == k)

mutual

/-- `JsonParser::parse_value`: dispatch on the current token. The `none` case
is the source's `None => unreachable!()` — reachable whenever the token
sequence is empty (e.g. empty input) or exhausted before a value. The
compound cases enter the loops of `parse_object`/`parse_array` (see the
wrappers of those names below, definitionally equal to these calls). -/
def parse_value : Nat → List JsonToken → Nat → Res (JsonValue × List JsonToken × Nat)
  | 0, _, _ => .fuelOut
  | fuel + 1, rest, idx =>
    match rest.head? with
    | some (.string v _) => .ok (.string v, rest, idx)
    | some (.number v _) => .ok (.number v, rest, idx)
    | some (.boolean v _) => .ok (.boolean v, rest, idx)
    | some (.null _) => .ok (.null, rest, idx)
    | some (.leftBrace _) => po_loop fuel [] rest idx
    | some (.leftBracket _) => pa_loop fuel [] rest idx
    | some (.colon p) => .fault ⟨"Unexpected ':'".data, p⟩
    | some (.comma p) => .fault ⟨"Unexpected ','".data, p⟩
    | some (.rightBrace p) => .fault ⟨"Unexpected '\x7d'".data, p⟩
    | some (.rightBracket p) => .fault ⟨"Unexpected ']'".data, p⟩
    | some (.eof p) => .fault ⟨"Unexpected end of input".data, p⟩
    | none => .panicked "internal error: entered unreachable code".data

/-- The `while let Some(token) = self.advance()` loop of `parse_object`. When
the advance at the loop head finds no token, the accumulated partial object is
returned as a success (the source's fall-through `Ok`). After a key: the colon
check (any non-colon token is `Expected ':'` at that token's position), then
the duplicate-key check at the key's position — before the value is parsed —
then the value, then the separator, whose failure is reported at `self.index`:
a token index, not a character position. A missing colon token panics
(`None => unreachable!()`). -/
def po_loop : Nat → List (List Char × JsonValue) → List JsonToken → Nat →
    Res (JsonValue × List JsonToken × Nat)
  | 0, _, _, _ => .fuelOut
  | fuel + 1, acc, rest, idx =>
    match rest.tail.head? with
    | none => .ok (.object acc, rest.tail, idx + 1)
    | some (.rightBrace _) => .ok (.object acc, rest.tail, idx + 1)
    | some (.string val pos) =>
      match rest.tail.tail.head? with
      | some (.colon _) =>
        if keyMem val acc then .fault ⟨"Duplicate key '".data ++ val ++ "'".data, pos⟩
        else
          match parse_value fuel rest.tail.tail.tail (idx + 3) with
          | .ok (value, restv, idxv) =>
            match restv.tail.head? with
            | some (.comma _) => po_loop fuel (acc ++ [(val, value)]) restv.tail (idxv + 1)
            | some (.rightBrace _) => .ok (.object (acc ++ [(val, value)]), restv.tail, idxv + 1)
            | _ => .fault ⟨"Expected ',' or '\x7d'".data, idxv + 1⟩
          | e => e
      | some t => .fault ⟨"Expected ':'".data, t.pos⟩
      | none => .panicked "internal error: entered unreachable code".data
    | some t => .fault ⟨"Expected string".data, t.pos⟩

/-- The loop of `parse_array`: like `po_loop`, the loop-head advance finding no
token returns the accumulated partial array as a success, while the separator
check after a value reports `Expected ',' or ']'` at `self.index` — a token
index. -/
def pa_loop : Nat → List JsonValue → List JsonToken → Nat →
    Res (JsonValue × List JsonToken × Nat)
  | 0, _, _, _ => .fuelOut
  | fuel + 1, acc, rest, idx =>
    match rest.tail.head? with
    | none => .ok (.array acc, rest.tail, idx + 1)
    | some (.rightBracket _) => .ok (.array acc, rest.tail, idx + 1)
    | some (.colon p) => .fault ⟨"Expected a value".data, p⟩
    | some (.comma p) => .fault ⟨"Expected a value".data, p⟩
    | some _ =>
      match parse_value fuel rest.tail (idx + 1) with
      | .ok (v, restv, idxv) =>
        match restv.tail.head? with
        | some (.comma _) => pa_loop fuel (acc ++ [v]) restv.tail (idxv + 1)
        | some (.rightBracket _) => .ok (.array (acc ++ [v]), restv.tail, idxv + 1)
        | _ => .fault ⟨"Expected ',' or ']'".data, idxv + 1⟩
      | e => e

end

/-- `JsonParser::parse_object` (entered with the `{` token current): run the
object loop with an empty accumulator. -/
def parse_object (fuel : Nat) (rest : List JsonToken) (idx : Nat) :
    Res (JsonValue × List JsonToken × Nat) :=
  po_loop fuel [] rest idx

/-- `JsonParser::parse_array` (entered with the `[` token current): run the
array loop with an empty accumulator. -/
def parse_array (fuel : Nat) (rest : List JsonToken) (idx : Nat) :
    Res (JsonValue × List JsonToken × Nat) :=
  pa_loop fuel [] rest idx

/-- `JSON::parse` (via `JsonParser::parse`): trim, lex the whole input — the
lexer trims its copy again — then parse a single value from the front of the
token sequence. Tokens after the first complete value are ignored. -/
def JSON.parse (json : List Char) : Res JsonValue :=
  match lex (trimChars json) with
  | .ok tokens =>
    match parse_value (2 * tokens.length + 4) tokens 0 with
    | .ok (v, _, _) => .ok v
    | .fault e => .fault e
    | .panicked m => .panicked m
    | .fuelOut => .fuelOut
  | .fault e => .fault e
  | .panicked m => .panicked m
  | .fuelOut => .fuelOut

/-! ### Serializer (`generate_json` / `JSON::stringify` of `src/json.rs`) -/

/-- The padding pushed before each element of a non-empty array/object:
mode 1 a single space, mode 2 a newline plus `"  ".repeat(level + 1)`. -/
def elemPad (pretty : Int) (level : Nat) : List Char :=
  if pretty = 1 then [' ']
  else if pretty = 2 then '\n' :: List.replicate (2 * (level + 1)) ' '
  else []

/-- The padding pushed after the last element, before the closing delimiter:
mode 1 a single space, mode 2 a newline plus `"  ".repeat(level)`. -/
def closePad (pretty : Int) (level : Nat) : List Char :=
  if pretty = 1 then [' ']
  else if pretty = 2 then '\n' :: List.replicate (2 * level) ' '
  else []

/-- The space after an object key's colon: present exactly when
`[1, 2].contains(&pretty)`. -/
def colonSpace (pretty : Int) : List Char :=
  if pretty = 1 ∨ pretty = 2 then [' '] else []

/-- Rust `str::replace` with a single-character pattern. -/
def replaceChar (old : Char) (rep : List Char) : List Char → List Char
  | [] => []
  | c :: t => (if c = old then rep else [c]) ++ replaceChar old rep t

/-- The escape chain of the `JsonValue::String` arm of `generate_json`, applied
in the source's order: `\` first, then `/`, `"`, backspace, form feed, `\n`,
`\r`, `\t`. -/
def escape_json (s : List Char) : List Char :=
  replaceChar '\t' "\\t".data (replaceChar '\r' "\\r".data (replaceChar '\n' "\\n".data
    (replaceChar '\x0C' "\\f".data (replaceChar '\x08' "\\b".data
      (replaceChar '"' "\\\"".data (replaceChar '/' "\\/".data
        (replaceChar '\\' "\\\\".data s)))))))

/-- Decimal digit character for `d < 10`. -/
def digitChar (d : Nat) : Char := Char.ofNat (48 + d)

/-- Least-significant-first decimal digits of `n`, with explicit fuel (the
first argument; `n` itself is always sufficient) so that the kernel can
evaluate it. Empty for `n = 0`. -/
def ndr : Nat → Nat → List Nat
  | 0, _ => []
  | fuel + 1, n => if n = 0 then [] else n % 10 :: ndr fuel (n / 10)

/-- Most-significant-first decimal digit characters of `n`. -/
def natToDigits (n : Nat) : List Char := ((ndr n n).reverse).map digitChar

/-- Decimal rendering of a finite double (the finite arm of
`f64::to_string`): the significand's digits with the decimal point `exp`
places from the right (the integer part zero-padded as needed), or no point
at all when `exp = 0`. Rust prints the shortest decimal that reads back as
the same double; this model prints the exact fraction — both choices parse
back to the same value, which is all the round-trip properties consume. -/
def decToString (d : Dec) : List Char :=
  let ds0 := natToDigits d.num.natAbs
  let ds := List.replicate (d.exp + 1 - ds0.length) '0' ++ ds0
  let sign : List Char := if d.num < 0 then ['-'] else []
  if d.exp = 0 then sign ++ ds
  else sign ++ ds.take (ds.length - d.exp) ++ '.' :: ds.drop (ds.length - d.exp)

/-- Rust `f64::to_string`: finite doubles render as plain decimal text
(`decToString`), and the non-finite values render as `Display` prints them —
`inf`, `-inf`, and `NaN`. -/
def float_to_string : F64 → List Char
  | .finite d => decToString d
  | .inf true => "-inf".data
  | .inf false => "inf".data
  | .nan => "NaN".data

mutual

/-- `generate_json` of `src/json.rs`: recursive rendering of a value under a
formatting mode (`pretty`) and nesting level. Empty collections render as
`[]`/`{}` regardless of mode; non-empty ones render each element behind
`elemPad`, comma-separated, with `closePad` before the closing delimiter. -/
def generate_json : JsonValue → Int → Nat → List Char
  | .null, _, _ => "null".data
  | .string s, _, _ => '"' :: (escape_json s ++ ['"'])
  | .number n, _, _ => float_to_string n
  | .boolean b, _, _ => if b then "true".data else "false".data
  | .array [], _, _ => "[]".data
  | .array (v :: arr), pretty, level =>
    '[' :: (genArrayItems (v :: arr) pretty level ++ closePad pretty level ++ [']'])
  | .object [], _, _ => "\x7b\x7d".data
  | .object (e :: obj), pretty, level =>
    '\x7b' :: (genObjectItems (e :: obj) pretty level ++ closePad pretty level ++ ['\x7d'])

/-- The `for (i, v) in arr.iter().enumerate()` loop of the array arm: each
element is preceded by `elemPad` and followed by a comma unless it is last. -/
def genArrayItems : List JsonValue → Int → Nat → List Char
  | [], _, _ => []
  | [v], pretty, level => elemPad pretty level ++ generate_json v pretty (level + 1)
  | v :: rest, pretty, level =>
    elemPad pretty level ++ generate_json v pretty (level + 1) ++
      ',' :: genArrayItems rest pretty level

/-- The object-entry loop: `"key":` with the key emitted verbatim (no escape
chain), `colonSpace`, then the rendered value, comma-separated. -/
def genObjectItems : List (List Char × JsonValue) → Int → Nat → List Char
  | [], _, _ => []
  | [(k, v)], pretty, level =>
    elemPad pretty level ++
      '"' :: (k ++ '"' :: ':' :: (colonSpace pretty ++ generate_json v pretty (level + 1)))
  | (k, v) :: rest, pretty, level =>
    elemPad pretty level ++
      '"' :: (k ++ '"' :: ':' :: (colonSpace pretty ++ generate_json v pretty (level + 1))) ++
      ',' :: genObjectItems rest pretty level

end

/-- `JSON::stringify`: `generate_json` from level 0. -/
def JSON.stringify (value : JsonValue) (pretty : Int) : List Char :=
  generate_json value pretty 0

/-! ### Auxiliary predicates used by the theorems -/

/-- Tokens on which `parse_value` succeeds immediately without advancing
(the four literal token kinds). -/
def isScalarTok : JsonToken → Bool
  | .null _ => true
  | .string _ _ => true
  | .number _ _ => true
  | .boolean _ _ => true
  | _ => false

/-- Is the token a `Comma`? -/
def isCommaTok : JsonToken → Bool
  | .comma _ => true
  | _ => false

/-- Is the token a `RightBracket`? -/
def isRBracketTok : JsonToken → Bool
  | .rightBracket _ => true
  | _ => false

/-- Is the token a `RightBrace`? -/
def isRBraceTok : JsonToken → Bool
  | .rightBrace _ => true
  | _ => false

/-- The escape characters recognized by `make_string` after a backslash,
excluding the `u` that panics. -/
def isEscapeChar (c : Char) : Bool :=
  c = '"' || c = '\\' || c = '/' || c = 'b' || c = 'f' || c = 'n' || c = 'r' || c = 't'

/-- The escape set named by the key-escaping claim: quote, backslash,
backspace, form feed, newline, carriage return, tab. -/
def isClaimEscapeChar (c : Char) : Bool :=
  c = '"' || c = '\\' || c = '\x08' || c = '\x0C' || c = '\n' || c = '\r' || c = '\t'

/-- Remove every whitespace character. -/
def stripWS (s : List Char) : List Char := s.filter (fun c => !rustIsWhitespace c)

/-! ### Claim theorems -/

/-- C1: the claim states that `JSON::parse` is total and always returns a
`Value` or an `Error`. The code violates this: the empty string and a
whitespace-only string produce an empty token sequence, so `parse_value` hits
its `None => unreachable!()` arm and panics; a `\u` escape hits
`todo!("unicode escape sequences")`; and an object whose key is the last token
hits the `None => unreachable!()` in `parse_object`'s colon check. This
theorem evaluates the model at those failing inputs, exhibiting the panics. -/
theorem claim_C1 :
    JSON.parse "".data = .panicked "internal error: entered unreachable code".data ∧
    JSON.parse "   ".data = .panicked "internal error: entered unreachable code".data ∧
    JSON.parse "\"\\u0041\"".data =
      .panicked "not yet implemented: unicode escape sequences".data ∧
    JSON.parse "\x7b\"a\"".data = .panicked "internal error: entered unreachable code".data :=
  ⟨rfl, rfl, rfl, rfl⟩

/-- C2 counterexample: `parse("true garbage")` does not succeed — `parse`
lexes the whole input first, and `make_keyword` rejects `garbage`, so the
parse fails with `Unexpected 'garbage'` at character 5 instead of returning
`Boolean(true)`. -/
theorem claim_C2_counterexample :
    JSON.parse "true garbage".data = .fault ⟨"Unexpected 'garbage'".data, 5⟩ := rfl

/-- C2 (amended): trailing tokens after a complete top-level value are ignored
— `parse("true false")` and `parse("true ]")` succeed returning
`Boolean(true)` — but only when the whole input lexes; trailing content that
fails lexing, such as `"true garbage"`, aborts the parse with the lexer's
error. -/
theorem claim_C2 :
    JSON.parse "true false".data = .ok (.boolean true) ∧
    JSON.parse "true ]".data = .ok (.boolean true) ∧
    JSON.parse "true garbage".data = .fault ⟨"Unexpected 'garbage'".data, 5⟩ :=
  ⟨rfl, rfl, rfl⟩

/-- C3 counterexample: the `ExpectedCommaOrBracket` error does not carry a
character offset. For `"[false 1]"` the lexer produces tokens at character
positions 0, 1, 7 and 8, and the error is detected at the `Number` token
whose character position is 7 — yet the reported index is 2, the parser's
token-stream index of that token (`self.index`), which coincides with no
token's character position. -/
theorem claim_C3_counterexample :
    JSON.parse "[false 1]".data = .fault ⟨"Expected ',' or ']'".data, 2⟩ ∧
    lex (trimChars "[false 1]".data) =
      .ok [.leftBracket 0, .boolean false 1, .number (.finite ⟨1, 0⟩) 7, .rightBracket 8] :=
  ⟨rfl, rfl⟩

/-- C3 (amended): the `ExpectedCommaOrBracket` and `ExpectedCommaOrBrace`
errors raised inside `parse_array`/`parse_object` carry the parser's
token-stream index (`self.index`), not a character offset: with the loop
entered at token index `idx`, a scalar element/entry value followed by a token
that is neither the separator comma nor the closing delimiter is reported at
token index `idx + 2` (arrays) resp. `idx + 4` (objects), whatever the
tokens' character positions are. (All other parse errors carry a `pos` field
of some token, which is a character offset.) -/
theorem claim_C3 :
    (∀ fuel acc t₀ tok bad r idx, isScalarTok tok = true → isCommaTok bad = false →
      isRBracketTok bad = false →
      pa_loop (fuel + 2) acc (t₀ :: tok :: bad :: r) idx =
        .fault ⟨"Expected ',' or ']'".data, idx + 2⟩) ∧
    (∀ fuel acc t₀ k kp cp tok bad r idx, isScalarTok tok = true → keyMem k acc = false →
      isCommaTok bad = false → isRBraceTok bad = false →
      po_loop (fuel + 2) acc (t₀ :: .string k kp :: .colon cp :: tok :: bad :: r) idx =
        .fault ⟨"Expected ',' or '\x7d'".data, idx + 4⟩) := by
  constructor
  · intro fuel acc t₀ tok bad r idx hs hc hb
    cases tok <;> simp [isScalarTok] at hs <;>
      cases bad <;> simp [isCommaTok] at hc <;> simp [isRBracketTok] at hb <;>
        simp [pa_loop, parse_value]
  · intro fuel acc t₀ k kp cp tok bad r idx hs hk hc hb
    cases tok <;> simp [isScalarTok] at hs <;>
      cases bad <;> simp [isCommaTok] at hc <;> simp [isRBraceTok] at hb <;>
        simp [po_loop, parse_value, hk]

/-- C3 witness: the array-side amended statement instantiated at the token
sequence of `"[false 1]"` (characters 0, 1, 7, 8): the error is reported at
token index 2. -/
theorem claim_C3_witness :
    isScalarTok (.boolean false 1) = true ∧ isCommaTok (.number (.finite ⟨1, 0⟩) 7) = false ∧
    isRBracketTok (.number (.finite ⟨1, 0⟩) 7) = false ∧
    pa_loop 2 [] [.leftBracket 0, .boolean false 1, .number (.finite ⟨1, 0⟩) 7, .rightBracket 8] 0 =
      .fault ⟨"Expected ',' or ']'".data, 2⟩ :=
  ⟨rfl, rfl, rfl,
    claim_C3.1 0 [] (.leftBracket 0) (.boolean false 1) (.number (.finite ⟨1, 0⟩) 7) [.rightBracket 8] 0
      rfl rfl rfl⟩

/-- C4: a key already present in the object under construction is rejected
with `DuplicateKey` at the repeated key's position, before the value is
parsed. The general statement: whenever the loop of `parse_object` meets a
`String` key token followed by a colon and the key is already present, it
fails at the key's character position `pos` without touching the following
tokens. Concretely, `parse("{\"a\":1,\"a\":2}")` fails with
`Duplicate key 'a'` at character 7, the second `"a"` — and so does
`parse("{\"a\":1,\"a\":}")`, whose ill-formed value would have raised
`Unexpected '}'` had the value been parsed first. -/
theorem claim_C4 :
    (∀ fuel acc t₀ val pos cp r idx, keyMem val acc = true →
      po_loop (fuel + 1) acc (t₀ :: .string val pos :: .colon cp :: r) idx =
        .fault ⟨"Duplicate key '".data ++ val ++ "'".data, pos⟩) ∧
    JSON.parse "\x7b\"a\":1,\"a\":2\x7d".data = .fault ⟨"Duplicate key 'a'".data, 7⟩ ∧
    JSON.parse "\x7b\"a\":1,\"a\":\x7d".data = .fault ⟨"Duplicate key 'a'".data, 7⟩ := by
  refine ⟨?_, rfl, rfl⟩
  intro fuel acc t₀ val pos cp r idx h
  simp [po_loop, h]

/-- C4 witness: the general duplicate-key statement at the parser state
reached inside `"{\"a\":1,\"a\":2}"` right before the second key. -/
theorem claim_C4_witness :
    keyMem "a".data [("a".data, JsonValue.number (.finite ⟨1, 0⟩))] = true ∧
    po_loop 1 [("a".data, JsonValue.number (.finite ⟨1, 0⟩))]
      [.comma 6, .string "a".data 7, .colon 10, .number (.finite ⟨2, 0⟩) 11] 4 =
      .fault ⟨"Duplicate key '".data ++ "a".data ++ "'".data, 7⟩ :=
  ⟨rfl,
    claim_C4.1 0 [("a".data, JsonValue.number (.finite ⟨1, 0⟩))] (.comma 6) "a".data 7 10
      [.number (.finite ⟨2, 0⟩) 11] 4 rfl⟩

/-- C5 counterexample: for input `"\q"` the backslash is at character 1, so
the claim puts the `InvalidEscape` error at index 2; the code reports
`self.index - 1`, which is the backslash's own position 1. -/
theorem claim_C5_counterexample :
    JSON.parse "\"\\q\"".data = .fault ⟨"Invalid escape sequence '\\q'".data, 1⟩ ∧
    ("\"\\q\"".data)[1]? = some '\\' ∧
    JSON.parse "\"\\q\"".data ≠ .fault ⟨"Invalid escape sequence '\\q'".data, 2⟩ := by
  refine ⟨rfl, rfl, fun h => ?_⟩
  rw [show JSON.parse "\"\\q\"".data =
    Res.fault ⟨"Invalid escape sequence '\\q'".data, 1⟩ from rfl] at h
  simp at h

/-- C5 (amended): an unrecognized escape character (outside the recognized
set and not the panicking `u`) fails with `InvalidEscape` positioned at the
backslash itself (`self.index - 1`), not at the backslash's position + 1. In
`msLoop`'s convention the head of the suffix is at index `i`, so a suffix
starting with the backslash fails at exactly `i`. Concretely, `"\q"` fails at
index 1, the backslash. -/
theorem claim_C5 :
    (∀ acc i c r, isEscapeChar c = false → c ≠ 'u' →
      msLoop acc i ('\\' :: c :: r) =
        .fault ⟨"Invalid escape sequence '\\".data ++ [c] ++ "'".data, i⟩) ∧
    JSON.parse "\"\\q\"".data = .fault ⟨"Invalid escape sequence '\\q'".data, 1⟩ := by
  refine ⟨?_, rfl⟩
  intro acc i c r hesc hu
  simp only [msLoop]
  split
  all_goals simp_all [isEscapeChar]

/-- C5 witness: the amended statement at the unrecognized escape `\q`, with
the backslash at index 1 (the state reached while lexing `"\q"`). -/
theorem claim_C5_witness :
    isEscapeChar 'q' = false ∧ 'q' ≠ 'u' ∧
    msLoop [] 1 ['\\', 'q'] = .fault ⟨"Invalid escape sequence '\\".data ++ ['q'] ++ "'".data, 1⟩ :=
  ⟨rfl, by decide, claim_C5.1 [] 1 'q' [] rfl (by decide)⟩

/-- C7 counterexample: exhausting the token sequence inside `parse_array`
does not always return the partial collection — when the tokens run out right
after a parsed value (at the separator check), the parse fails with
`Expected ',' or ']'` (at token index 2 here), so `parse("[1")` is an error,
not a successful partial array. -/
theorem claim_C7_counterexample :
    JSON.parse "[1".data = .fault ⟨"Expected ',' or ']'".data, 2⟩ := rfl

/-- C7 (amended): when the token sequence is exhausted at the loop head of
`parse_object`/`parse_array` — immediately after the opening delimiter or
after a separator comma — the accumulated partial collection is returned as a
success (`[`, `[1,`, `{`, `{"a":1,`); but exhaustion at the separator check
right after a value fails with `ExpectedCommaOrBracket`/`Brace` (`[1`,
`{"a":1`), and exhaustion at an object's colon or value position panics (see
C1). -/
theorem claim_C7 :
    JSON.parse "[".data = .ok (.array []) ∧
    JSON.parse "[1,".data = .ok (.array [.number (.finite ⟨1, 0⟩)]) ∧
    JSON.parse "\x7b".data = .ok (.object []) ∧
    JSON.parse "\x7b\"a\":1,".data = .ok (.object [("a".data, .number (.finite ⟨1, 0⟩))]) ∧
    JSON.parse "[1".data = .fault ⟨"Expected ',' or ']'".data, 2⟩ ∧
    JSON.parse "\x7b\"a\":1".data = .fault ⟨"Expected ',' or '\x7d'".data, 4⟩ :=
  ⟨rfl, rfl, rfl, rfl, rfl, rfl⟩

/-- C9: a trailing comma immediately before the closing delimiter is
accepted: `parse("[1,]")` returns `Array([Number(1)])` and
`parse("{\"a\":1,}")` returns the one-entry object mapping `a` to
`Number(1)`. -/
theorem claim_C9 :
    JSON.parse "[1,]".data = .ok (.array [.number (.finite ⟨1, 0⟩)]) ∧
    JSON.parse "\x7b\"a\":1,\x7d".data = .ok (.object [("a".data, .number (.finite ⟨1, 0⟩))]) :=
  ⟨rfl, rfl⟩

/-! ### Whitespace lemmas for the formatting-mode claim -/

theorem stripWS_append (a b : List Char) : stripWS (a ++ b) = stripWS a ++ stripWS b :=
  List.filter_append ..

theorem stripWS_nil : stripWS [] = [] := rfl

theorem stripWS_cons_of_not_ws (c : Char) (t : List Char) (h : rustIsWhitespace c = false) :
    stripWS (c :: t) = c :: stripWS t := by
  simp [stripWS, List.filter_cons, h]

theorem stripWS_cons_of_ws (c : Char) (t : List Char) (h : rustIsWhitespace c = true) :
    stripWS (c :: t) = stripWS t := by
  simp [stripWS, List.filter_cons, h]

theorem stripWS_space_replicate (n : Nat) : stripWS (List.replicate n ' ') = [] := by
  induction n with
  | zero => rfl
  | succ n ih => rw [List.replicate_succ, stripWS_cons_of_ws _ _ (by decide)]; exact ih

theorem stripWS_elemPad (p : Int) (l : Nat) : stripWS (elemPad p l) = [] := by
  unfold elemPad
  split
  · decide
  · split
    · rw [stripWS_cons_of_ws _ _ (by decide)]; exact stripWS_space_replicate _
    · rfl

theorem stripWS_closePad (p : Int) (l : Nat) : stripWS (closePad p l) = [] := by
  unfold closePad
  split
  · decide
  · split
    · rw [stripWS_cons_of_ws _ _ (by decide)]; exact stripWS_space_replicate _
    · rfl

theorem stripWS_colonSpace (p : Int) : stripWS (colonSpace p) = [] := by
  unfold colonSpace
  split
  · decide
  · rfl

theorem stripWS_lbracket (t : List Char) : stripWS ('[' :: t) = '[' :: stripWS t :=
  stripWS_cons_of_not_ws _ _ (by decide)

theorem stripWS_lbrace (t : List Char) : stripWS ('\x7b' :: t) = '\x7b' :: stripWS t :=
  stripWS_cons_of_not_ws _ _ (by decide)

theorem stripWS_comma (t : List Char) : stripWS (',' :: t) = ',' :: stripWS t :=
  stripWS_cons_of_not_ws _ _ (by decide)

theorem stripWS_quote (t : List Char) : stripWS ('"' :: t) = '"' :: stripWS t :=
  stripWS_cons_of_not_ws _ _ (by decide)

theorem stripWS_colon (t : List Char) : stripWS (':' :: t) = ':' :: stripWS t :=
  stripWS_cons_of_not_ws _ _ (by decide)

theorem stripWS_rbracket (t : List Char) : stripWS (']' :: t) = ']' :: stripWS t :=
  stripWS_cons_of_not_ws _ _ (by decide)

theorem stripWS_rbrace (t : List Char) : stripWS ('\x7d' :: t) = '\x7d' :: stripWS t :=
  stripWS_cons_of_not_ws _ _ (by decide)

mutual

/-- After removing all whitespace, `generate_json` does not depend on the
formatting mode or the nesting level. -/
theorem strip_gen : ∀ (v : JsonValue) (p : Int) (l : Nat),
    stripWS (generate_json v p l) = stripWS (generate_json v 0 0)
  | .null, _, _ => by simp [generate_json]
  | .string _, _, _ => by simp [generate_json]
  | .number _, _, _ => by simp [generate_json]
  | .boolean _, _, _ => by simp [generate_json]
  | .array [], _, _ => by simp [generate_json]
  | .array (v :: arr), p, l => by
    simp only [generate_json, stripWS_lbracket, stripWS_append, stripWS_closePad]
    rw [strip_arr (v :: arr) p l]
  | .object [], _, _ => by simp [generate_json]
  | .object (e :: obj), p, l => by
    simp only [generate_json, stripWS_lbrace, stripWS_append, stripWS_closePad]
    rw [strip_obj (e :: obj) p l]

/-- Item-list version of `strip_gen` for arrays. -/
theorem strip_arr : ∀ (items : List JsonValue) (p : Int) (l : Nat),
    stripWS (genArrayItems items p l) = stripWS (genArrayItems items 0 0)
  | [], _, _ => by simp [genArrayItems]
  | [v], p, l => by
    simp only [genArrayItems, stripWS_append, stripWS_elemPad]
    rw [strip_gen v p (l + 1), strip_gen v 0 1]
  | v :: v₂ :: rest, p, l => by
    simp only [genArrayItems, stripWS_append, stripWS_elemPad, stripWS_comma]
    rw [strip_gen v p (l + 1), strip_gen v 0 1, strip_arr (v₂ :: rest) p l]

/-- Item-list version of `strip_gen` for objects. -/
theorem strip_obj : ∀ (items : List (List Char × JsonValue)) (p : Int) (l : Nat),
    stripWS (genObjectItems items p l) = stripWS (genObjectItems items 0 0)
  | [], _, _ => by simp [genObjectItems]
  | [(k, v)], p, l => by
    simp only [genObjectItems, stripWS_append, stripWS_elemPad, stripWS_quote, stripWS_colon,
      stripWS_colonSpace]
    rw [strip_gen v p (l + 1), strip_gen v 0 1]
  | (k, v) :: e₂ :: rest, p, l => by
    simp only [genObjectItems, stripWS_append, stripWS_elemPad, stripWS_quote, stripWS_colon,
      stripWS_colonSpace, stripWS_comma]
    rw [strip_gen v p (l + 1), strip_gen v 0 1, strip_obj (e₂ :: rest) p l]

end

/-- C8 counterexample: the claim compares whitespace-stripped pretty output
against the unstripped compact output, which fails as soon as a string scalar
contains whitespace: for `v = Array([String(" ")])`, stripping
`stringify(v, 1)` also deletes the space inside the string literal, giving
`["\"]"` shorn of its space, which differs from `stringify(v, 0) = ["\ \"]`. -/
theorem claim_C8_counterexample :
    stripWS (JSON.stringify (.array [.string [' ']]) 1) ≠
      JSON.stringify (.array [.string [' ']]) 0 := by
  have h1 : JSON.stringify (.array [.string [' ']]) 1 =
      ['[', ' ', '"', ' ', '"', ' ', ']'] := by
    simp [JSON.stringify, generate_json, genArrayItems, elemPad, closePad, escape_json,
      replaceChar]
  have h0 : JSON.stringify (.array [.string [' ']]) 0 = ['[', '"', ' ', '"', ']'] := by
    simp [JSON.stringify, generate_json, genArrayItems, elemPad, closePad, escape_json,
      replaceChar]
  rw [h1, h0]
  decide

/-- C8 (amended): the three formatting modes differ only in whitespace, in the
sense that removing all whitespace characters from `stringify(v, 1)` and from
`stringify(v, 2)` yields exactly the string obtained by removing all
whitespace from `stringify(v, 0)` — for every value `v`, empty or not. (The
original comparison against the unstripped `stringify(v, 0)` additionally
requires every string scalar and key of `v` to be whitespace-free, see the
counterexample.) -/
theorem claim_C8 : ∀ v : JsonValue,
    stripWS (JSON.stringify v 1) = stripWS (JSON.stringify v 0) ∧
    stripWS (JSON.stringify v 2) = stripWS (JSON.stringify v 0) :=
  fun v => ⟨strip_gen v 1 0, strip_gen v 2 0⟩

/-- C10: `stringify` applies the escape chain only to `String` values; object
keys are emitted verbatim between their surrounding quotes (`format!`'s `{}`
on the raw key), for any key containing a character of the escape set — both
for a singleton object and at the head of a larger object. -/
theorem claim_C10 :
    (∀ k v, (∃ c ∈ k, isClaimEscapeChar c = true) →
      JSON.stringify (.object [(k, v)]) 0 =
        '\x7b' :: '"' :: (k ++ '"' :: ':' :: (generate_json v 0 1 ++ ['\x7d']))) ∧
    (∀ k v e₂ rest, (∃ c ∈ k, isClaimEscapeChar c = true) →
      JSON.stringify (.object ((k, v) :: e₂ :: rest)) 0 =
        '\x7b' :: '"' :: (k ++ '"' :: ':' :: (generate_json v 0 1 ++
          ',' :: (genObjectItems (e₂ :: rest) 0 0 ++ ['\x7d'])))) := by
  constructor
  · intro k v _
    simp [JSON.stringify, generate_json, genObjectItems, elemPad, closePad, colonSpace]
  · intro k v e₂ rest _
    obtain ⟨k₂, v₂⟩ := e₂
    simp [JSON.stringify, generate_json, genObjectItems, elemPad, closePad, colonSpace]

/-- C10 witness: the singleton statement at the key `a\nb`, which contains the
newline of the escape set and is emitted verbatim. -/
theorem claim_C10_witness :
    (∃ c ∈ "a\nb".data, isClaimEscapeChar c = true) ∧
    JSON.stringify (.object [("a\nb".data, .null)]) 0 =
      '\x7b' :: '"' :: ("a\nb".data ++ '"' :: ':' :: (generate_json .null 0 1 ++ ['\x7d'])) :=
  ⟨⟨'\n', by decide, by decide⟩,
    claim_C10.1 "a\nb".data .null ⟨'\n', by decide, by decide⟩⟩

/-! ### Digit-string lemmas for the scalar round-trip claim -/

theorem ndr_lt_ten : ∀ (fuel n : Nat), ∀ d ∈ ndr fuel n, d < 10
  | 0, n => by simp [ndr]
  | fuel + 1, n => by
    by_cases hz : n = 0
    · simp [ndr, hz]
    · simp only [ndr, if_neg hz]
      intro d hd
      rcases List.mem_cons.mp hd with h1 | h2
      · omega
      · exact ndr_lt_ten fuel (n / 10) d h2

theorem ndr_ofDigits : ∀ (fuel n : Nat), n ≤ fuel → Nat.ofDigits 10 (ndr fuel n) = n
  | 0, n, h => by simp [ndr]; omega
  | fuel + 1, n, h => by
    by_cases hz : n = 0
    · simp [ndr, hz]
    · have hd : n / 10 ≤ fuel := by omega
      simp only [ndr, if_neg hz, Nat.ofDigits_cons, ndr_ofDigits fuel (n / 10) hd]
      omega

theorem digitChar_spec (d : Nat) (h : d < 10) :
    charToDigit (digitChar d) = d ∧ is_digit (digitChar d) = true := by
  interval_cases d <;> exact ⟨by decide, by decide⟩

theorem natVal_append_single (xs : List Char) (c : Char) :
    natVal (xs ++ [c]) = 10 * natVal xs + charToDigit c := by
  unfold natVal
  rw [List.foldl_append]
  rfl

theorem natVal_eq_ofDigits : ∀ (L : List Nat), (∀ d ∈ L, d < 10) →
    natVal (L.reverse.map digitChar) = Nat.ofDigits 10 L
  | [], _ => rfl
  | d :: L, h => by
    have hd := h d (List.mem_cons_self _ _)
    rw [List.reverse_cons, List.map_append, List.map_singleton, natVal_append_single,
      natVal_eq_ofDigits L (fun x hx => h x (List.mem_cons_of_mem _ hx)),
      Nat.ofDigits_cons, (digitChar_spec d hd).1]
    ring

theorem natVal_zero_cons (l : List Char) : natVal ('0' :: l) = natVal l := by
  unfold natVal
  rw [List.foldl_cons]
  have h : 10 * 0 + charToDigit '0' = 0 := by decide
  rw [h]

theorem natVal_zero_pad : ∀ (j : Nat) (l : List Char),
    natVal (List.replicate j '0' ++ l) = natVal l
  | 0, l => rfl
  | j + 1, l => by
    rw [List.replicate_succ, List.cons_append, natVal_zero_cons, natVal_zero_pad j l]

theorem natToDigits_natVal (n : Nat) : natVal (natToDigits n) = n := by
  unfold natToDigits
  rw [natVal_eq_ofDigits (ndr n n) (ndr_lt_ten n n), ndr_ofDigits n n le_rfl]

theorem natToDigits_digits (n : Nat) : ∀ c ∈ natToDigits n, is_digit c = true := by
  intro c hc
  unfold natToDigits at hc
  rw [List.mem_map] at hc
  obtain ⟨d, hd, rfl⟩ := hc
  rw [List.mem_reverse] at hd
  exact (digitChar_spec d (ndr_lt_ten n n d hd)).2

theorem takeWhile_all {p : Char → Bool} : ∀ (l : List Char), (∀ c ∈ l, p c = true) →
    l.takeWhile p = l ∧ l.dropWhile p = []
  | [], _ => ⟨rfl, rfl⟩
  | c :: t, h => by
    have hc := h c (List.mem_cons_self _ _)
    have ht := takeWhile_all t (fun x hx => h x (List.mem_cons_of_mem _ hx))
    rw [List.takeWhile_cons, List.dropWhile_cons]
    simp [hc, ht.1, ht.2]

theorem takeWhile_append_stop {p : Char → Bool} :
    ∀ (l₁ : List Char) (a : Char) (l₂ : List Char), (∀ c ∈ l₁, p c = true) → p a = false →
    (l₁ ++ a :: l₂).takeWhile p = l₁ ∧ (l₁ ++ a :: l₂).dropWhile p = a :: l₂
  | [], a, l₂, _, ha => by simp [List.takeWhile_cons, List.dropWhile_cons, ha]
  | c :: t, a, l₂, h, ha => by
    have hc := h c (List.mem_cons_self _ _)
    have ht := takeWhile_append_stop t a l₂ (fun x hx => h x (List.mem_cons_of_mem _ hx)) ha
    simp [List.takeWhile_cons, List.dropWhile_cons, hc, ht.1, ht.2]

theorem trimChars_eq_self (s : List Char) (h : ∀ c ∈ s, rustIsWhitespace c = false) :
    trimChars s = s := by
  unfold trimChars
  have h1 : s.dropWhile rustIsWhitespace = s := by
    cases s with
    | nil => rfl
    | cons c t =>
      rw [List.dropWhile_cons]
      simp [h c (List.mem_cons_self _ _)]
  rw [h1]
  have h2 : s.reverse.dropWhile rustIsWhitespace = s.reverse := by
    cases hr : s.reverse with
    | nil => rfl
    | cons c t =>
      have hc : c ∈ s := List.mem_reverse.mp (hr ▸ List.mem_cons_self c t)
      rw [List.dropWhile_cons]
      simp [h c hc]
  rw [h2, List.reverse_reverse]

theorem is_digit_num_char (c : Char) (h : is_digit c = true) : is_num_char c = true := by
  simp [is_num_char, h]

theorem is_num_char_not_ws (c : Char) (h : is_num_char c = true) :
    rustIsWhitespace c = false := by
  simp [is_num_char, is_digit] at h
  simp [rustIsWhitespace]
  omega

theorem canonDec_idem : ∀ (k : Nat) (n : Int),
    canonDec (canonDec n k).num (canonDec n k).exp = canonDec n k
  | 0, n => rfl
  | k + 1, n => by
    by_cases h : n % 10 = 0
    · simp only [canonDec, if_pos h]
      exact canonDec_idem k (n / 10)
    · simp only [canonDec, if_neg h]

/-! ### `rustParseF64` on rendered digit strings -/

theorem stripSign_minus (t : List Char) : stripSign ('-' :: t) = (true, t) := by
  simp [stripSign]

theorem stripSign_other (c : Char) (t : List Char) (h1 : c ≠ '-') (h2 : c ≠ '+') :
    stripSign (c :: t) = (false, c :: t) := by
  simp [stripSign, h1, h2]

theorem fracPart_dot (r : List Char) :
    fracPart ('.' :: r) = (r.takeWhile is_digit, r.dropWhile is_digit) := by
  simp [fracPart]

theorem fracPart_nil : fracPart [] = ([], []) := rfl

theorem is_digit_ne_minus (c : Char) (h : is_digit c = true) : c ≠ '-' := by
  rintro rfl
  exact absurd h (by decide)

theorem is_digit_ne_plus (c : Char) (h : is_digit c = true) : c ≠ '+' := by
  rintro rfl
  exact absurd h (by decide)

/-- Parsing an unsigned all-digit string below the overflow cutoff: the value
is `natVal`, exponent 0. -/
theorem rustParse_pos_nodot (ds : List Char) (hne : ds ≠ [])
    (hds : ∀ c ∈ ds, is_digit c = true) (hov : overflows (natVal ds) 0 = false) :
    rustParseF64 ds = some (.finite (canonDec (natVal ds) 0)) := by
  obtain ⟨c, t, rfl⟩ := List.exists_cons_of_ne_nil hne
  have hc := hds c (List.mem_cons_self _ _)
  have htw := takeWhile_all (c :: t) hds
  simp [rustParseF64, stripSign_other c t (is_digit_ne_minus c hc) (is_digit_ne_plus c hc),
    htw.1, htw.2, fracPart_nil, mkF64, hov]

/-- Parsing a negated all-digit string below the overflow cutoff. -/
theorem rustParse_neg_nodot (ds : List Char) (hne : ds ≠ [])
    (hds : ∀ c ∈ ds, is_digit c = true) (hov : overflows (natVal ds) 0 = false) :
    rustParseF64 ('-' :: ds) = some (.finite (canonDec (-(natVal ds : Int)) 0)) := by
  have htw := takeWhile_all ds hds
  simp [rustParseF64, stripSign_minus, htw.1, htw.2, fracPart_nil, hne, mkF64, hov]

/-- Parsing an unsigned digit string with a decimal point, below the overflow
cutoff: the value is the concatenated digits over `10 ^ (fraction length)`. -/
theorem rustParse_pos_dot (ip fp : List Char) (hip : ip ≠ [])
    (h1 : ∀ c ∈ ip, is_digit c = true) (h2 : ∀ c ∈ fp, is_digit c = true)
    (hov : overflows (natVal (ip ++ fp)) fp.length = false) :
    rustParseF64 (ip ++ '.' :: fp) = some (.finite (canonDec (natVal (ip ++ fp)) fp.length)) := by
  obtain ⟨c, t, rfl⟩ := List.exists_cons_of_ne_nil hip
  have hc := h1 c (List.mem_cons_self _ _)
  have key := takeWhile_append_stop (c :: t) '.' fp h1 (by decide)
  have hfp := takeWhile_all fp h2
  simp only [List.cons_append] at key hov ⊢
  simp [rustParseF64, stripSign_other c (t ++ '.' :: fp) (is_digit_ne_minus c hc)
    (is_digit_ne_plus c hc), key.1, key.2, fracPart_dot, hfp.1, hfp.2, mkF64, hov]

/-- Parsing a negated digit string with a decimal point, below the overflow
cutoff. -/
theorem rustParse_neg_dot (ip fp : List Char) (hip : ip ≠ [])
    (h1 : ∀ c ∈ ip, is_digit c = true) (h2 : ∀ c ∈ fp, is_digit c = true)
    (hov : overflows (natVal (ip ++ fp)) fp.length = false) :
    rustParseF64 ('-' :: (ip ++ '.' :: fp)) =
      some (.finite (canonDec (-(natVal (ip ++ fp) : Int)) fp.length)) := by
  have key := takeWhile_append_stop ip '.' fp h1 (by decide)
  have hfp := takeWhile_all fp h2
  simp [rustParseF64, stripSign_minus, key.1, key.2, fracPart_dot, hfp.1, hfp.2, hip,
    mkF64, hov]

/-! ### The rendered number string and its round-trip -/

/-- Structure of `decToString`: an optional sign followed by a nonempty
all-digit string `ds` whose value is `|num|` and whose length exceeds `exp`,
with the decimal point inserted `exp` places from the right when `exp ≠ 0`. -/
theorem decToString_eq (d : Dec) :
    ∃ ds : List Char, ds ≠ [] ∧ (∀ c ∈ ds, is_digit c = true) ∧
      natVal ds = d.num.natAbs ∧ d.exp + 1 ≤ ds.length ∧
      decToString d =
        (if d.num < 0 then ['-'] else []) ++
          (if d.exp = 0 then ds
           else ds.take (ds.length - d.exp) ++ '.' :: ds.drop (ds.length - d.exp)) := by
  refine ⟨List.replicate (d.exp + 1 - (natToDigits d.num.natAbs).length) '0' ++
    natToDigits d.num.natAbs, ?_, ?_, ?_, ?_, ?_⟩
  · have h : (List.replicate (d.exp + 1 - (natToDigits d.num.natAbs).length) '0' ++
        natToDigits d.num.natAbs).length =
        (d.exp + 1 - (natToDigits d.num.natAbs).length) +
          (natToDigits d.num.natAbs).length := by
      simp
    intro hcon
    rw [hcon] at h
    simp at h
    omega
  · intro c hc
    rcases List.mem_append.mp hc with h | h
    · rw [List.eq_of_mem_replicate h]; decide
    · exact natToDigits_digits _ c h
  · rw [natVal_zero_pad, natToDigits_natVal]
  · simp
    omega
  · by_cases hk : d.exp = 0 <;> simp [decToString, hk]

/-- The rendered number string of a finite double below the overflow cutoff
starts with a digit or `-` (code 45), consists of `make_number` characters
only, and `rustParseF64` reads it back as the canonical form of the rendered
value. -/
theorem decToString_parse (d : Dec) (hov : overflows d.num.natAbs d.exp = false) :
    ∃ c t, decToString d = c :: t ∧ (is_digit c = true ∨ c.toNat = 45) ∧
      (∀ x ∈ c :: t, is_num_char x = true) ∧
      rustParseF64 (c :: t) = some (.finite (canonDec d.num d.exp)) := by
  obtain ⟨ds, hne, hds, hval, hlen, heq⟩ := decToString_eq d
  have habs : d.num < 0 → -((d.num.natAbs : Int)) = d.num := by omega
  have habs' : ¬d.num < 0 → ((d.num.natAbs : Int)) = d.num := by omega
  by_cases hk : d.exp = 0
  · -- no decimal point
    obtain ⟨c, t, rfl⟩ := List.exists_cons_of_ne_nil hne
    have hc := hds c (List.mem_cons_self _ _)
    have hnum : ∀ x ∈ c :: t, is_num_char x = true := fun x hx => is_digit_num_char x (hds x hx)
    have hov' : overflows (natVal (c :: t)) 0 = false := by rw [hval, ← hk]; exact hov
    by_cases hz : d.num < 0
    · refine ⟨'-', c :: t, ?_, Or.inr (by decide), ?_, ?_⟩
      · rw [heq]; simp [hz, hk]
      · intro x hx
        rcases List.mem_cons.mp hx with h | h
        · rw [h]; decide
        · exact hnum x h
      · rw [rustParse_neg_nodot (c :: t) (List.cons_ne_nil c t) hds hov', hval, habs hz, hk]
    · refine ⟨c, t, ?_, Or.inl hc, hnum, ?_⟩
      · rw [heq]; simp [hz, hk]
      · rw [rustParse_pos_nodot (c :: t) (List.cons_ne_nil c t) hds hov', hval,
          show ((d.num.natAbs : Int)) = d.num from habs' hz, hk]
  · -- decimal point present
    have hipne : ds.take (ds.length - d.exp) ≠ [] := by
      have h : (ds.take (ds.length - d.exp)).length = ds.length - d.exp := by
        rw [List.length_take]; omega
      intro hcon
      rw [hcon] at h
      simp at h
      omega
    have hipd : ∀ c ∈ ds.take (ds.length - d.exp), is_digit c = true :=
      fun c hc => hds c (List.take_subset _ _ hc)
    have hfpd : ∀ c ∈ ds.drop (ds.length - d.exp), is_digit c = true :=
      fun c hc => hds c (List.drop_subset _ _ hc)
    have hfplen : (ds.drop (ds.length - d.exp)).length = d.exp := by
      rw [List.length_drop]; omega
    have hjoin : ds.take (ds.length - d.exp) ++ ds.drop (ds.length - d.exp) = ds :=
      List.take_append_drop _ _
    have hov' : overflows (natVal (ds.take (ds.length - d.exp) ++ ds.drop (ds.length - d.exp)))
        (ds.drop (ds.length - d.exp)).length = false := by
      rw [hjoin, hval, hfplen]; exact hov
    have hnumx : ∀ x ∈ ds.take (ds.length - d.exp) ++ '.' :: ds.drop (ds.length - d.exp),
        is_num_char x = true := by
      intro x hx
      rcases List.mem_append.mp hx with h | h
      · exact is_digit_num_char x (hipd x h)
      · rcases List.mem_cons.mp h with h | h
        · rw [h]; decide
        · exact is_digit_num_char x (hfpd x h)
    by_cases hz : d.num < 0
    · refine ⟨'-', ds.take (ds.length - d.exp) ++ '.' :: ds.drop (ds.length - d.exp),
        ?_, Or.inr (by decide), ?_, ?_⟩
      · rw [heq]; simp [hz, hk]
      · intro x hx
        rcases List.mem_cons.mp hx with h | h
        · rw [h]; decide
        · exact hnumx x h
      · rw [rustParse_neg_dot _ _ hipne hipd hfpd hov', hjoin, hval, hfplen, habs hz]
    · obtain ⟨c, t, hip⟩ := List.exists_cons_of_ne_nil hipne
      have hc : is_digit c = true := hipd c (hip ▸ List.mem_cons_self c t)
      refine ⟨c, t ++ '.' :: ds.drop (ds.length - d.exp), ?_, Or.inl hc, ?_, ?_⟩
      · rw [heq]; simp [hz, hk, hip]
      · rw [show c :: (t ++ '.' :: ds.drop (ds.length - d.exp)) =
          (c :: t) ++ '.' :: ds.drop (ds.length - d.exp) from rfl, ← hip]
        exact hnumx
      · rw [show c :: (t ++ '.' :: ds.drop (ds.length - d.exp)) =
          (c :: t) ++ '.' :: ds.drop (ds.length - d.exp) from rfl, ← hip]
        rw [rustParse_pos_dot _ _ hipne hipd hfpd hov', hjoin, hval, hfplen,
          show ((d.num.natAbs : Int)) = d.num from habs' hz]

/-- Lexing the suffix starting with a number: `make_number` consumes every
character and the produced token carries the parsed value. -/
theorem lexLoop_number (fuel pos : Nat) (c : Char) (t : List Char) (d : F64)
    (hall : ∀ x ∈ c :: t, is_num_char x = true)
    (hc : is_digit c = true ∨ c.toNat = 45)
    (hp : rustParseF64 (c :: t) = some d) :
    lexLoop (fuel + 2) pos (c :: t) = .ok [.number d pos] := by
  have hcb : (48 ≤ c.toNat ∧ c.toNat ≤ 57) ∨ c.toNat = 45 := by
    rcases hc with h | h
    · left; simpa [is_digit] using h
    · right; exact h
  have h1 : ¬(c.toNat = 32 ∨ c.toNat = 9 ∨ c.toNat = 10 ∨ c.toNat = 13) := by omega
  have h2 : ¬(c.toNat = 34) := by omega
  have htw := takeWhile_all (c :: t) hall
  show lexLoop (fuel + 1 + 1) pos (c :: t) = _
  simp only [lexLoop, if_neg h1, if_neg h2, if_pos hc, make_number, htw.1, htw.2, hp]

/-- `lex` on a rendered finite number below the overflow cutoff is a single
`Number` token at position 0. -/
theorem lex_decToString (d : Dec) (hov : overflows d.num.natAbs d.exp = false) :
    lex (decToString d) = .ok [.number (.finite (canonDec d.num d.exp)) 0] := by
  obtain ⟨c, t, heq, hc, hall, hp⟩ := decToString_parse d hov
  have hws : ∀ x ∈ decToString d, rustIsWhitespace x = false := by
    rw [heq]
    exact fun x hx => is_num_char_not_ws x (hall x hx)
  unfold lex
  rw [trimChars_eq_self _ hws, heq]
  exact lexLoop_number t.length 0 c t _ hall hc hp

/-- `JSON.parse` on a rendered finite number below the overflow cutoff
returns the canonical decimal value. -/
theorem parse_decToString (d : Dec) (hov : overflows d.num.natAbs d.exp = false) :
    JSON.parse (decToString d) = .ok (.number (.finite (canonDec d.num d.exp))) := by
  have hws : ∀ x ∈ decToString d, rustIsWhitespace x = false := by
    obtain ⟨c, t, heq, hc, hall, hp⟩ := decToString_parse d hov
    rw [heq]
    exact fun x hx => is_num_char_not_ws x (hall x hx)
  unfold JSON.parse
  rw [trimChars_eq_self _ hws, lex_decToString d hov]
  rfl

/-- C6 counterexample: the claim ranges over all 64-bit floats, but for the
non-finite doubles the program breaks the round trip. The parser itself
produces infinity — `parse("1e999")` overflows to `+inf`, exactly as Rust's
`str::parse::<f64>` does — yet `f64::to_string` renders infinity as `inf`,
which `make_keyword` rejects, and NaN as `NaN`, whose `N` matches no lexer
dispatch arm. So `parse(stringify(Number(inf), 0))` and
`parse(stringify(Number(NaN), 0))` return errors, not the value. -/
theorem claim_C6_counterexample :
    JSON.parse "1e999".data = .ok (.number (.inf false)) ∧
    JSON.parse (JSON.stringify (.number (.inf false)) 0) =
      .fault ⟨"Unexpected 'inf'".data, 0⟩ ∧
    JSON.parse (JSON.stringify (.number .nan) 0) = .fault ⟨"Unexpected 'N'".data, 0⟩ := by
  refine ⟨rfl, ?_, ?_⟩
  · rw [show JSON.stringify (.number (.inf false)) 0 = "inf".data from by
      simp [JSON.stringify, generate_json, float_to_string]]
    rfl
  · rw [show JSON.stringify (.number .nan) 0 = "NaN".data from by
      simp [JSON.stringify, generate_json, float_to_string]]
    rfl

/-- C6 (amended): round-trip for scalars restricted to the values for which
the source succeeds — `parse(stringify(v, 0))` returns `v` for `Null`,
`Boolean(true)`, `Boolean(false)`, and for `Number(n)` with `n` ranging over
the finite 64-bit floats only; the non-finite doubles (±infinity, NaN) break
the round trip outright, see the counterexample. Finite doubles are modeled
by the canonical decimal fractions `canonDec z k` whose magnitude is below
the overflow cutoff (`overflows … = false`); "modulo float formatting
precision" is the exact-decimal abstraction of double rounding documented at
`Dec`, under which the round-trip is exact. -/
theorem claim_C6 :
    JSON.parse (JSON.stringify .null 0) = .ok .null ∧
    JSON.parse (JSON.stringify (.boolean true) 0) = .ok (.boolean true) ∧
    JSON.parse (JSON.stringify (.boolean false) 0) = .ok (.boolean false) ∧
    ∀ (z : Int) (k : Nat), overflows (canonDec z k).num.natAbs (canonDec z k).exp = false →
      JSON.parse (JSON.stringify (.number (.finite (canonDec z k))) 0) =
        .ok (.number (.finite (canonDec z k))) := by
  refine ⟨?_, ?_, ?_, ?_⟩
  · rw [show JSON.stringify .null 0 = "null".data from by simp [JSON.stringify, generate_json]]
    rfl
  · rw [show JSON.stringify (.boolean true) 0 = "true".data from by
      simp [JSON.stringify, generate_json]]
    rfl
  · rw [show JSON.stringify (.boolean false) 0 = "false".data from by
      simp [JSON.stringify, generate_json]]
    rfl
  · intro z k hov
    rw [show JSON.stringify (.number (.finite (canonDec z k))) 0 =
        decToString (canonDec z k) from by
      simp [JSON.stringify, generate_json, float_to_string]]
    rw [parse_decToString _ hov, canonDec_idem]

/-- C6 witness: the amended round trip at the finite value `-1.5`
(`canonDec (-15) 1`), whose magnitude lies far below the overflow cutoff. -/
theorem claim_C6_witness :
    overflows (canonDec (-15) 1).num.natAbs (canonDec (-15) 1).exp = false ∧
    JSON.parse (JSON.stringify (.number (.finite (canonDec (-15) 1))) 0) =
      .ok (.number (.finite (canonDec (-15) 1))) :=
  ⟨by decide, claim_C6.2.2.2 (-15) 1 (by decide)⟩

end Parsers

/-! ### Concrete evaluations of the model

These anonymous checks evaluate the embedded pipeline on the repository's own
test vectors (`src/lib.rs`) and on the inputs the claims are about, verifying
that the embedding computes as the source does. -/

example : Parsers.JSON.parse "123".data = .ok (.number (.finite ⟨123, 0⟩)) := rfl
example : Parsers.JSON.parse "\"hello\"".data = .ok (.string "hello".data) := rfl
example : Parsers.JSON.parse "\"hello\\\\ world\"".data =
    .ok (.string "hello\\ world".data) := rfl
example : Parsers.JSON.parse "\x7b\"a\":null,\"b\":true,\"c\":123,\"d\":\"hello\"\x7d".data =
    .ok (.object [("a".data, .null), ("b".data, .boolean true),
      ("c".data, .number (.finite ⟨123, 0⟩)), ("d".data, .string "hello".data)]) := rfl
example : Parsers.JSON.parse "\x7b\"a\":42,\"b\":[true],\"c\":\"a\"\x7d".data =
    .ok (.object [("a".data, .number (.finite ⟨42, 0⟩)), ("b".data, .array [.boolean true]),
      ("c".data, .string "a".data)]) := rfl
example : Parsers.JSON.stringify .null 0 = "null".data := by
  simp [Parsers.JSON.stringify, Parsers.generate_json]
example : Parsers.JSON.stringify (.boolean true) 0 = "true".data := by
  simp [Parsers.JSON.stringify, Parsers.generate_json]
example : Parsers.JSON.stringify (.number (.finite ⟨123, 0⟩)) 0 = "123".data := by
  simp [Parsers.JSON.stringify, Parsers.generate_json, Parsers.float_to_string,
    Parsers.decToString, Parsers.natToDigits, Parsers.ndr, Parsers.digitChar]
example : Parsers.JSON.stringify (.number (.finite ⟨-123456, 3⟩)) 0 = "-123.456".data := by
  simp [Parsers.JSON.stringify, Parsers.generate_json, Parsers.float_to_string,
    Parsers.decToString, Parsers.natToDigits, Parsers.ndr, Parsers.digitChar]
example : Parsers.JSON.stringify (.string "hello\\ world\n".data) 0 =
    "\"hello\\\\ world\\n\"".data := by
  simp [Parsers.JSON.stringify, Parsers.generate_json, Parsers.escape_json, Parsers.replaceChar]
example : Parsers.JSON.stringify
    (.array [.null, .boolean true, .number (.finite ⟨123, 0⟩), .string "hello".data]) 0 =
    "[null,true,123,\"hello\"]".data := by
  simp [Parsers.JSON.stringify, Parsers.generate_json, Parsers.genArrayItems, Parsers.elemPad,
    Parsers.closePad, Parsers.escape_json, Parsers.replaceChar, Parsers.float_to_string,
    Parsers.decToString, Parsers.natToDigits, Parsers.ndr, Parsers.digitChar]
example : Parsers.JSON.stringify (.array [.null, .boolean true]) 0 = "[null,true]".data := by
  simp [Parsers.JSON.stringify, Parsers.generate_json, Parsers.genArrayItems, Parsers.elemPad,
    Parsers.closePad]
example : Parsers.JSON.stringify (.string "a\nb".data) 0 = "\"a\\nb\"".data := by
  simp [Parsers.JSON.stringify, Parsers.generate_json, Parsers.escape_json, Parsers.replaceChar]
example : Parsers.JSON.stringify (.number (.finite ⟨-15, 1⟩)) 0 = "-1.5".data := by
  simp [Parsers.JSON.stringify, Parsers.generate_json, Parsers.float_to_string,
    Parsers.decToString, Parsers.natToDigits, Parsers.ndr, Parsers.digitChar]
example : Parsers.JSON.parse "null".data = .ok .null := rfl
example : Parsers.JSON.parse "true".data = .ok (.boolean true) := rfl
example : Parsers.JSON.parse "-123.456e+3".data = .ok (.number (.finite ⟨-123456, 0⟩)) := rfl
example : Parsers.JSON.parse "[null,true,123,\"hello\"]".data =
    .ok (.array [.null, .boolean true, .number (.finite ⟨123, 0⟩), .string "hello".data]) := rfl
example : Parsers.JSON.parse "[42,[true],\"a\"]".data =
    .ok (.array [.number (.finite ⟨42, 0⟩), .array [.boolean true], .string "a".data]) := rfl
example : Parsers.JSON.parse "\x7b\"a\":null,\"b\":true\x7d".data =
    .ok (.object [("a".data, .null), ("b".data, .boolean true)]) := rfl
example : Parsers.JSON.parse "".data =
    .panicked "internal error: entered unreachable code".data := rfl
example : Parsers.JSON.parse "   ".data =
    .panicked "internal error: entered unreachable code".data := rfl
example : Parsers.JSON.parse "\x7b\"a\"".data =
    .panicked "internal error: entered unreachable code".data := rfl
example : Parsers.JSON.parse "\x7b\"a\":".data =
    .panicked "internal error: entered unreachable code".data := rfl
example : Parsers.JSON.parse "[1,]".data = .ok (.array [.number (.finite ⟨1, 0⟩)]) := rfl
example : Parsers.JSON.parse "\x7b\"a\":1,\x7d".data =
    .ok (.object [("a".data, .number (.finite ⟨1, 0⟩))]) := rfl
example : Parsers.JSON.parse "[1".data = .fault ⟨"Expected ',' or ']'".data, 2⟩ := rfl
example : Parsers.JSON.parse "[1,".data = .ok (.array [.number (.finite ⟨1, 0⟩)]) := rfl
example : Parsers.JSON.parse "[".data = .ok (.array []) := rfl
example : Parsers.JSON.parse "true garbage".data = .fault ⟨"Unexpected 'garbage'".data, 5⟩ := rfl
example : Parsers.JSON.parse "true false".data = .ok (.boolean true) := rfl
example : Parsers.JSON.parse "\x7b\"a\":1,\"a\":2\x7d".data =
    .fault ⟨"Duplicate key 'a'".data, 7⟩ := rfl
example : Parsers.JSON.parse "\x7b\"a\":1,\"a\":\x7d".data =
    .fault ⟨"Duplicate key 'a'".data, 7⟩ := rfl
example : Parsers.JSON.parse "[false 1]".data = .fault ⟨"Expected ',' or ']'".data, 2⟩ := rfl
example : Parsers.JSON.parse "\x7b\"aa\":1 1\x7d".data =
    .fault ⟨"Expected ',' or '\x7d'".data, 4⟩ := rfl
example : Parsers.canonDec 10 1 = ⟨1, 0⟩ := by decide
example : Parsers.canonDec (-10) 1 = ⟨-1, 0⟩ := by decide
example : Parsers.canonDec 15 1 = ⟨15, 1⟩ := rfl
example : Parsers.rustParseF64 "1".data = some (.finite ⟨1, 0⟩) := rfl
example : Parsers.rustParseF64 "-123.456e+3".data = some (.finite ⟨-123456, 0⟩) := rfl
example : Parsers.rustParseF64 "1.50".data = some (.finite ⟨15, 1⟩) := rfl
example : Parsers.rustParseF64 ".".data = none := rfl
example : Parsers.rustParseF64 "1e999".data = some (.inf false) := rfl
example : Parsers.rustParseF64 "-1e999".data = some (.inf true) := rfl
example : Parsers.rustParseF64 "1e-999".data = some (.finite ⟨1, 999⟩) := rfl
example : Parsers.JSON.parse "inf".data = .fault ⟨"Unexpected 'inf'".data, 0⟩ := rfl
example : Parsers.JSON.parse "NaN".data = .fault ⟨"Unexpected 'N'".data, 0⟩ := rfl
example : Parsers.JSON.stringify (.number (.inf true)) 0 = "-inf".data := by
  simp [Parsers.JSON.stringify, Parsers.generate_json, Parsers.float_to_string]
example : Parsers.JSON.stringify (.number .nan) 0 = "NaN".data := by
  simp [Parsers.JSON.stringify, Parsers.generate_json, Parsers.float_to_string]
example : Parsers.lex "[1,]".data =
    .ok [.leftBracket 0, .number (.finite ⟨1, 0⟩) 1, .comma 2, .rightBracket 3] := rfl
example : Parsers.lex "true garbage".data = .fault ⟨"Unexpected 'garbage'".data, 5⟩ := rfl
example : Parsers.lex "  null ".data = .ok [.null 0] := rfl
example : Parsers.lex "\"a\\nb\"".data = .ok [.string "a\nb".data 0] := rfl
example : Parsers.lex "\"\\q\"".data = .fault ⟨"Invalid escape sequence '\\q'".data, 1⟩ := rfl
example : Parsers.lex "\"\\u0041\"".data =
    .panicked "not yet implemented: unicode escape sequences".data := rfl
